import Mathlib

/-!
Verification of the AES-GCM sealed-data subsystem of the media-encryption demo.

Byte buffers are modelled as `List Nat`.  The three backends are embedded in
separate namespaces:

* `Web`     — `src/modules/aes-crypto/src/AesCryptoModule.web.ts`
* `Kotlin`  — `src/modules/aes-crypto/android/.../EncryptionKey.kt` (and the
              Kotlin module file concatenated after it)
* `Ios`     — `src/modules/aes-crypto/ios/AesCryptoModule.swift`

The platform AEAD primitive (WebCrypto `crypto.subtle`, `javax.crypto`,
CryptoKit) is not part of the repository; it is modelled by the abstract
structure `Aead` together with named correctness predicates, plus the concrete
executable instance `idealAead` used to evaluate statements on concrete
inputs.
-/

namespace Web

/-- Web: `SealedDataConfig` from `AesCrypto.types.ts` — nonce (IV) and tag
lengths in bytes. -/
structure SealedDataConfig where
  ivLength : Nat
  tagLength : Nat
deriving DecidableEq

/-- Web: `defaultConfig` (`IV_LENGTH = 12`, `TAG_LENGTH = 16`). -/
def defaultConfig : SealedDataConfig := ⟨12, 16⟩

/-- Web: `SealedData` holds one contiguous buffer and its partition config. -/
structure SealedData where
  buffer : List Nat
  config : SealedDataConfig
deriving DecidableEq

/-- JS `new Uint8Array(buffer, off, len)` read out as bytes: the `len` bytes of
`buffer` starting at `off`. -/
def jsSlice (l : List Nat) (off len : Nat) : List Nat := (l.drop off).take len

/-- Web: `SealedData.fromCombined(combined, config?)` — stores the buffer with
the given (or default) config.  The source performs no size validation. -/
def SealedData.fromCombined (combined : List Nat) (config : Option SealedDataConfig) :
    SealedData :=
  ⟨combined, config.getD defaultConfig⟩

/-- Web: the JS value passed as the third argument of
`SealedData.fromNonceAndCiphertext` — absent, a number, or a byte array. -/
inductive TagArg where
  | undef : TagArg
  | num : Nat → TagArg
  | bytes : List Nat → TagArg

/-- Web: `SealedData.fromNonceAndCiphertext(iv, ciphertext, tag?)`.
The source tests `if (!tag) tag = TAG_LENGTH`, and the JS number `0` is falsy,
so both an absent argument and the number `0` become the default `16`.
The numeric path stores `iv ++ ciphertext` with `tagLength` set to the number;
the byte path concatenates `iv ++ ciphertext ++ tag`. -/
def SealedData.fromNonceAndCiphertext (iv ciphertext : List Nat) (tag : TagArg) :
    SealedData :=
  match tag with
  | .undef => ⟨iv ++ ciphertext, ⟨iv.length, 16⟩⟩
  | .num 0 => ⟨iv ++ ciphertext, ⟨iv.length, 16⟩⟩
  | .num n => ⟨iv ++ ciphertext, ⟨iv.length, n⟩⟩
  | .bytes tb => ⟨iv ++ ciphertext ++ tb, ⟨iv.length, tb.length⟩⟩

/-- Web: `get ivSize()`. -/
def SealedData.ivSize (s : SealedData) : Nat := s.config.ivLength

/-- Web: `get tagSize()`. -/
def SealedData.tagSize (s : SealedData) : Nat := s.config.tagLength

/-- Web: `get combinedSize()`. -/
def SealedData.combinedSize (s : SealedData) : Nat := s.buffer.length

/-- Web: `iv()` — `new Uint8Array(this.buffer, 0, this.ivSize)` read as bytes. -/
def SealedData.iv (s : SealedData) : List Nat := jsSlice s.buffer 0 s.ivSize

/-- Web: `tag()` — slice at `combinedSize - tagSize` of length `tagSize`. -/
def SealedData.tag (s : SealedData) : List Nat :=
  jsSlice s.buffer (s.combinedSize - s.tagSize) s.tagSize

/-- Web: `combined()` — the whole buffer. -/
def SealedData.combined (s : SealedData) : List Nat := s.buffer

/-- Web: `ciphertext({withTag})` — slice at `ivSize` of length
`combinedSize - ivSize` (with tag) or `combinedSize - ivSize - tagSize`. -/
def SealedData.ciphertext (s : SealedData) (withTag : Bool) : List Nat :=
  let taggedCiphertextLength := s.combinedSize - s.ivSize
  let len := if withTag then taggedCiphertextLength else taggedCiphertextLength - s.tagSize
  jsSlice s.buffer s.ivSize len

end Web

/-- Claim C5: for all nonce, ciphertext and tag buffers,
`fromNonceAndCiphertext(nonce, ciphertext, tag)` (the components form) yields a
`SealedData` whose `combined()` is `nonce ++ ciphertext ++ tag`, whose `iv()`,
`ciphertext(false)`, `ciphertext(true)` and `tag()` accessors return exactly
`nonce`, `ciphertext`, `ciphertext ++ tag` and `tag`; and `fromCombined` on
that combined output with the same lengths yields the very same `SealedData`,
hence identical accessor outputs. -/
theorem Web.fromComponents_accessors (nonce ct tg : List Nat) :
    (Web.SealedData.fromNonceAndCiphertext nonce ct (Web.TagArg.bytes tg)).combined
        = nonce ++ ct ++ tg
    ∧ (Web.SealedData.fromNonceAndCiphertext nonce ct (Web.TagArg.bytes tg)).iv = nonce
    ∧ (Web.SealedData.fromNonceAndCiphertext nonce ct (Web.TagArg.bytes tg)).ciphertext false
        = ct
    ∧ (Web.SealedData.fromNonceAndCiphertext nonce ct (Web.TagArg.bytes tg)).ciphertext true
        = ct ++ tg
    ∧ (Web.SealedData.fromNonceAndCiphertext nonce ct (Web.TagArg.bytes tg)).tag = tg
    ∧ Web.SealedData.fromCombined
        ((Web.SealedData.fromNonceAndCiphertext nonce ct (Web.TagArg.bytes tg)).combined)
        (some ⟨nonce.length, tg.length⟩)
        = Web.SealedData.fromNonceAndCiphertext nonce ct (Web.TagArg.bytes tg) := by
  have hbuf : (Web.SealedData.fromNonceAndCiphertext nonce ct (Web.TagArg.bytes tg)).buffer
      = nonce ++ ct ++ tg := rfl
  have hiv : (Web.SealedData.fromNonceAndCiphertext nonce ct (Web.TagArg.bytes tg)).ivSize
      = nonce.length := rfl
  have htg : (Web.SealedData.fromNonceAndCiphertext nonce ct (Web.TagArg.bytes tg)).tagSize
      = tg.length := rfl
  refine ⟨rfl, ?_, ?_, ?_, ?_, rfl⟩
  · show Web.jsSlice (nonce ++ ct ++ tg) 0 nonce.length = nonce
    simp [Web.jsSlice, List.append_assoc, List.take_left]
  · show Web.jsSlice (nonce ++ ct ++ tg)
        nonce.length ((nonce ++ ct ++ tg).length - nonce.length - tg.length) = ct
    have hlen : (nonce ++ ct ++ tg).length - nonce.length - tg.length = ct.length := by
      simp [List.length_append]
    rw [hlen]
    rw [List.append_assoc]
    simp [Web.jsSlice, List.drop_left, List.take_left]
  · show Web.jsSlice (nonce ++ ct ++ tg)
        nonce.length ((nonce ++ ct ++ tg).length - nonce.length) = ct ++ tg
    have hlen : (nonce ++ ct ++ tg).length - nonce.length = ct.length + tg.length := by
      simp [List.length_append]
    rw [hlen, List.append_assoc]
    have : (ct ++ tg).length = ct.length + tg.length := by simp
    simp [Web.jsSlice, List.drop_left]
  · show Web.jsSlice (nonce ++ ct ++ tg)
        ((nonce ++ ct ++ tg).length - tg.length) tg.length = tg
    have hlen : (nonce ++ ct ++ tg).length - tg.length = (nonce ++ ct).length := by
      simp [List.length_append]
      omega
    rw [hlen]
    simp [Web.jsSlice, List.drop_left]

/-- Claim C10: on the web backend, a numeric tag-length of `0` passed to
`fromNonceAndCiphertext` behaves exactly like omitting the argument (the
stored tag length becomes the default 16, so a zero-length tag cannot be
requested through the numeric form), while any positive numeric tag-length `t`
is stored verbatim as `tagSize` with no validation that `t` bytes fit inside
the supplied ciphertext-with-tag buffer (the buffer `iv ++ ciphertext` is
accepted unchanged for every `t`). -/
theorem Web.fromNonceAndCiphertext_numeric_tag (iv ct : List Nat) (t : Nat) (ht : 0 < t) :
    Web.SealedData.fromNonceAndCiphertext iv ct (Web.TagArg.num 0)
        = Web.SealedData.fromNonceAndCiphertext iv ct Web.TagArg.undef
    ∧ (Web.SealedData.fromNonceAndCiphertext iv ct (Web.TagArg.num 0)).tagSize = 16
    ∧ (Web.SealedData.fromNonceAndCiphertext iv ct (Web.TagArg.num t)).tagSize = t
    ∧ (Web.SealedData.fromNonceAndCiphertext iv ct (Web.TagArg.num t)).combined
        = iv ++ ct := by
  obtain ⟨m, rfl⟩ : ∃ m, t = m + 1 := ⟨t - 1, by omega⟩
  exact ⟨rfl, rfl, rfl, rfl⟩

/-- Witness for C10 at a concrete input: requested tag length 1000 is stored
even though the ciphertext buffer holds a single byte. -/
theorem Web.fromNonceAndCiphertext_numeric_tag_witness :
    (Web.SealedData.fromNonceAndCiphertext [2] [1] (Web.TagArg.num 1000)).tagSize = 1000
    ∧ (Web.SealedData.fromNonceAndCiphertext [2] [1] (Web.TagArg.num 0)).tagSize = 16 :=
  ⟨(Web.fromNonceAndCiphertext_numeric_tag [2] [1] 1000 (by decide)).2.2.1,
   (Web.fromNonceAndCiphertext_numeric_tag [2] [1] 1000 (by decide)).2.1⟩

namespace Kotlin

/-- Android: `enum class KeySize` — the valid AES key sizes in bits. -/
inductive KeySize where
  | aes128 : KeySize
  | aes192 : KeySize
  | aes256 : KeySize
deriving DecidableEq

/-- Android: `KeySize.value` — the bit count of a key size. -/
def KeySize.value : KeySize → Nat
  | .aes128 => 128
  | .aes192 => 192
  | .aes256 => 256

/-- Android: `KeySize.entries` in declaration order. -/
def KeySize.entries : List KeySize := [.aes128, .aes192, .aes256]

/-- Android: `KeySize.fromByteLength(byteLen)` —
`entries.find { it.value == byteLen * 8 }`, with `requireNotNull` modelled as
`none` on failure. -/
def KeySize.fromByteLength (byteLen : Nat) : Option KeySize :=
  KeySize.entries.find? (fun k => k.value == byteLen * 8)

/-- Android: `EncryptionKey` — stores its `KeySize` and (for the byte
constructor, via `SecretKeySpec`) the raw key material, returned verbatim by
`getEncoded`. -/
structure EncryptionKey where
  keySize : KeySize
  keyBytes : List Nat
deriving DecidableEq

/-- Android: `EncryptionKey(bytes)` constructor —
`keySize = KeySize.fromByteLength(bytes.size)` (failing when no size matches),
`nativeInstance = SecretKeySpec(bytes, "AES")` which keeps the bytes as given. -/
def EncryptionKey.importFrom (bytes : List Nat) : Option EncryptionKey :=
  match KeySize.fromByteLength bytes.length with
  | some ks => some ⟨ks, bytes⟩
  | none => none

/-- Android: `EncryptionKey.bytes` — `nativeInstance.encoded`, the stored key
material. -/
def EncryptionKey.bytes (k : EncryptionKey) : List Nat := k.keyBytes

/-- Android: `SealedData(ivLength, tagLength, content)` with its `init` block
`assert(content.size > ivLength + tagLength)`; the failing assertion is
modelled as failed construction (`none`). -/
structure SealedData where
  ivLength : Nat
  tagLength : Nat
  content : List Nat
deriving DecidableEq

/-- Android: the checked constructor of `SealedData` (the `init` assertion). -/
def mkSealedData (ivLength tagLength : Nat) (content : List Nat) : Option SealedData :=
  if ivLength + tagLength < content.length then some ⟨ivLength, tagLength, content⟩ else none

end Kotlin

/-- Claim C2 counterexample: on the web backend (`SealedData.fromCombined`,
`AesCryptoModule.web.ts` lines 129-132) construction performs no size
validation, so a buffer of length exactly `nonceLength + tagLength = 28`
is accepted and a `SealedData` whose content length equals
`ivSize + tagSize` exists, contradicting the claim that such construction
always fails and that no such instance can exist. -/
theorem Web.fromCombined_boundary_accepted :
    Web.SealedData.fromCombined (List.replicate 28 0) none
        = ⟨List.replicate 28 0, ⟨12, 16⟩⟩
    ∧ (Web.SealedData.fromCombined (List.replicate 28 0) none).combinedSize
        = (Web.SealedData.fromCombined (List.replicate 28 0) none).ivSize
          + (Web.SealedData.fromCombined (List.replicate 28 0) none).tagSize := by
  exact ⟨rfl, by decide⟩

/-- Claim C2 (amended): on the Android backend, constructing a `SealedData`
from a combined buffer fails (the `init` assertion) if and only if
`content.length <= ivLength + tagLength` — in particular a buffer of length
exactly `ivLength + tagLength` is rejected — and every successfully
constructed Android instance satisfies `ivLength + tagLength < content.length`;
the web backend's `fromCombined` performs no size validation and accepts any
buffer unchanged. -/
theorem Kotlin.mkSealedData_size_validation (n t : Nat) (content : List Nat) :
    (Kotlin.mkSealedData n t content = none ↔ content.length ≤ n + t)
    ∧ (∀ s : Kotlin.SealedData, Kotlin.mkSealedData n t content = some s →
        n + t < s.content.length)
    ∧ (Web.SealedData.fromCombined content (some ⟨n, t⟩)).combined = content := by
  refine ⟨?_, ?_, rfl⟩
  · unfold Kotlin.mkSealedData
    split
    · constructor
      · intro h
        exact absurd h (by simp)
      · intro h
        omega
    · constructor
      · intro _
        omega
      · intro _
        rfl
  · intro s hs
    unfold Kotlin.mkSealedData at hs
    split at hs
    · cases hs
      assumption
    · cases hs

/-- Witness for the amended C2 at concrete inputs: the boundary buffer of
length `12 + 16 = 28` is rejected by the Android constructor while the web
`fromCombined` accepts it, and a 29-byte buffer is accepted by Android. -/
theorem Kotlin.mkSealedData_size_validation_witness :
    Kotlin.mkSealedData 12 16 (List.replicate 28 0) = none
    ∧ (Web.SealedData.fromCombined (List.replicate 28 0) (some ⟨12, 16⟩)).combined
        = List.replicate 28 0
    ∧ ∀ s : Kotlin.SealedData, Kotlin.mkSealedData 12 16 (List.replicate 29 0) = some s →
        28 < s.content.length :=
  ⟨(Kotlin.mkSealedData_size_validation 12 16 (List.replicate 28 0)).1.mpr (by decide),
   (Kotlin.mkSealedData_size_validation 12 16 (List.replicate 28 0)).2.2,
   (Kotlin.mkSealedData_size_validation 12 16 (List.replicate 29 0)).2.1⟩

/-- Helper: `KeySize.fromByteLength` succeeds exactly on 16, 24 and 32. -/
theorem Kotlin.fromByteLength_none_iff (n : Nat) :
    Kotlin.KeySize.fromByteLength n = none ↔ ¬(n = 16 ∨ n = 24 ∨ n = 32) := by
  unfold Kotlin.KeySize.fromByteLength Kotlin.KeySize.entries
  simp only [List.find?, Kotlin.KeySize.value]
  cases h1 : (128 == n * 8) with
  | true =>
      have e1 : n = 16 := by have := beq_iff_eq.mp h1; omega
      simp [e1]
  | false =>
      cases h2 : (192 == n * 8) with
      | true =>
          have e2 : n = 24 := by have := beq_iff_eq.mp h2; omega
          simp [h1, e2]
      | false =>
          cases h3 : (256 == n * 8) with
          | true =>
              have e3 : n = 32 := by have := beq_iff_eq.mp h3; omega
              simp [h1, h2, e3]
          | false =>
              have d1 : n ≠ 16 := by have := beq_eq_false_iff_ne.mp h1; omega
              have d2 : n ≠ 24 := by have := beq_eq_false_iff_ne.mp h2; omega
              have d3 : n ≠ 32 := by have := beq_eq_false_iff_ne.mp h3; omega
              simp [h1, h2, h3, d1, d2, d3]

/-- Claim C3: importing a key from bytes fails with `InvalidKeyLength` exactly
when the byte length is not one of 16, 24, 32, and an accepted key keeps its
bytes unchanged (no truncation or padding): the exported bytes equal the
input.  Embedded from the Android `EncryptionKey(bytes)` constructor and
`KeySize.fromByteLength`; the iOS guard
(`KeySize.isValidSize(byteLength:)`) enforces the same set. -/
theorem Kotlin.importFrom_length_validation (b : List Nat) :
    (Kotlin.EncryptionKey.importFrom b = none
        ↔ ¬(b.length = 16 ∨ b.length = 24 ∨ b.length = 32))
    ∧ ∀ k : Kotlin.EncryptionKey, Kotlin.EncryptionKey.importFrom b = some k →
        Kotlin.EncryptionKey.bytes k = b := by
  constructor
  · rw [← Kotlin.fromByteLength_none_iff b.length]
    unfold Kotlin.EncryptionKey.importFrom
    cases hfb : Kotlin.KeySize.fromByteLength b.length with
    | none => simp
    | some ks => simp
  · intro k hk
    unfold Kotlin.EncryptionKey.importFrom at hk
    cases hfb : Kotlin.KeySize.fromByteLength b.length with
    | none => rw [hfb] at hk; cases hk
    | some ks =>
        rw [hfb] at hk
        have e : (⟨ks, b⟩ : Kotlin.EncryptionKey) = k := Option.some.inj hk
        subst e
        rfl

/-- Witness for C3 at concrete inputs: 15 bytes are rejected, 24 bytes are
accepted with the bytes kept verbatim. -/
theorem Kotlin.importFrom_length_validation_witness :
    Kotlin.EncryptionKey.importFrom (List.replicate 15 0) = none
    ∧ Kotlin.EncryptionKey.bytes ⟨Kotlin.KeySize.aes192, List.replicate 24 5⟩
        = List.replicate 24 5 :=
  ⟨(Kotlin.importFrom_length_validation (List.replicate 15 0)).1.mpr (by decide),
   (Kotlin.importFrom_length_validation (List.replicate 24 5)).2
     ⟨Kotlin.KeySize.aes192, List.replicate 24 5⟩ (by decide)⟩

namespace Web

/-- Web: `EncryptionKey` key material as exported by `bytes()`
(`crypto.subtle.exportKey` returns the raw key bytes). -/
structure EncryptionKey where
  keyBytes : List Nat
deriving DecidableEq

/-- Web: the number of declared parameters of the `bytes` method of
`EncryptionKey` (`async bytes()` declares none).  In JS, the property access
`this.bytes` yields the method object itself, and `.length` of a function is
its declared parameter count. -/
def bytesMethodParamCount : Nat := 0

/-- Web: the getter `get size() { return (this.bytes.length * 8) as KeySize }`
— `this.bytes` is the unapplied method, so the getter multiplies the method's
parameter count by 8. -/
def EncryptionKey.size (_k : EncryptionKey) : Nat := bytesMethodParamCount * 8

/-- Web: `bytes()` — the exported raw key bytes. -/
def EncryptionKey.bytes (k : EncryptionKey) : List Nat := k.keyBytes

end Web

/-- Claim C8, evaluated at the failing input: on the web backend the `size`
getter reads `this.bytes.length * 8` where `this.bytes` is the unapplied
method object, so `size` is `0` for every key — never one of 128/192/256 and
never `8 *` the exported byte count (here 256 for a 32-byte key).  The Android
backend computes the size correctly (a 32-byte import reports 256 bits). -/
theorem Web.size_getter_returns_zero :
    Web.EncryptionKey.size ⟨List.replicate 32 0⟩ = 0
    ∧ ¬(Web.EncryptionKey.size ⟨List.replicate 32 0⟩ = 128
        ∨ Web.EncryptionKey.size ⟨List.replicate 32 0⟩ = 192
        ∨ Web.EncryptionKey.size ⟨List.replicate 32 0⟩ = 256)
    ∧ 8 * (Web.EncryptionKey.bytes ⟨List.replicate 32 0⟩).length = 256
    ∧ (Kotlin.EncryptionKey.importFrom (List.replicate 32 0)).map
        (fun k => k.keySize.value) = some 256 := by
  refine ⟨rfl, by decide, by decide, by decide⟩

namespace Web

/-- JS TypedArray view semantics: `new Uint8Array(buffer, off, len)` creates a
view of `len` bytes of the underlying `ArrayBuffer` starting at `off`; reads
and writes through the view address the same storage. -/
structure ArrayView where
  off : Nat
  len : Nat
deriving DecidableEq

/-- The view returned by the web `iv()` accessor: `(0, ivSize)`. -/
def SealedData.ivView (s : SealedData) : ArrayView := ⟨0, s.ivSize⟩

/-- The view returned by the web `combined()` accessor: the whole buffer. -/
def SealedData.combinedView (s : SealedData) : ArrayView := ⟨0, s.combinedSize⟩

/-- Reading a view out as bytes at the current buffer state. -/
def readView (buf : List Nat) (v : ArrayView) : List Nat := (buf.drop v.off).take v.len

/-- Writing value `val` at index `i` of a view stores it at `off + i` of the
shared buffer (JS TypedArray store semantics). -/
def writeView (s : SealedData) (v : ArrayView) (i val : Nat) : SealedData :=
  ⟨s.buffer.set (v.off + i) val, s.config⟩

end Web

/-- Claim C7 counterexample: on the web backend the array returned by `iv()`
is a view into the internal buffer, not a copy — writing 99 at index 0 of the
view returned for a concrete 29-byte `SealedData` changes the output of a
subsequent `combined()` read (and of `iv()` itself), so accessor outputs do
not stay unchanged under caller mutation. -/
theorem Web.iv_view_aliases_buffer_cex :
    Web.readView
        (Web.writeView (Web.SealedData.fromCombined (List.range 29) none)
          ((Web.SealedData.fromCombined (List.range 29) none).ivView) 0 99).buffer
        ((Web.writeView (Web.SealedData.fromCombined (List.range 29) none)
          ((Web.SealedData.fromCombined (List.range 29) none).ivView) 0 99).combinedView)
      ≠ Web.readView (Web.SealedData.fromCombined (List.range 29) none).buffer
          ((Web.SealedData.fromCombined (List.range 29) none).combinedView)
    ∧ (Web.writeView (Web.SealedData.fromCombined (List.range 29) none)
          ((Web.SealedData.fromCombined (List.range 29) none).ivView) 0 99).iv
      ≠ (Web.SealedData.fromCombined (List.range 29) none).iv := by
  exact ⟨by decide, by decide⟩

/-- Claim C7 (amended): the web byte accessors return TypedArray views that
alias the internal buffer rather than copies: writing a changed byte through
the view returned by `iv()` at an in-range index changes the stored buffer and
the output of every subsequent `combined()` read.  (The Android `iv`, `tag`
and `ciphertext` accessors copy, but Android `combined()` returns the backing
array; key export is a fresh copy on both; no operation otherwise mutates an
existing instance.) -/
theorem Web.accessor_views_alias (s : Web.SealedData) (i v : Nat)
    (hi : i < s.ivSize) (hle : s.ivSize ≤ s.buffer.length)
    (hv : s.buffer[i]? ≠ some v) :
    (Web.writeView s (s.ivView) i v).buffer ≠ s.buffer
    ∧ Web.readView (Web.writeView s (s.ivView) i v).buffer
        ((Web.writeView s (s.ivView) i v).combinedView)
      ≠ Web.readView s.buffer (s.combinedView) := by
  have hlt : i < s.buffer.length := lt_of_lt_of_le hi hle
  have hset : (Web.writeView s (s.ivView) i v).buffer = s.buffer.set i v := by
    show s.buffer.set (0 + i) v = s.buffer.set i v
    rw [Nat.zero_add]
  have hneq : s.buffer.set i v ≠ s.buffer := by
    intro heq
    apply hv
    have h2 : (s.buffer.set i v)[i]? = s.buffer[i]? := by rw [heq]
    rw [List.getElem?_set_self hlt] at h2
    exact h2.symm
  constructor
  · rw [hset]
    exact hneq
  · have hread : ∀ t : Web.SealedData, Web.readView t.buffer t.combinedView = t.buffer := by
      intro t
      show (t.buffer.drop 0).take t.buffer.length = t.buffer
      rw [List.drop_zero, List.take_length]
    rw [hread, hread]
    rw [hset]
    exact hneq

/-- Witness for the amended C7 at a concrete input: writing 99 through the iv
view of the 29-byte container changes the buffer and the combined read. -/
theorem Web.accessor_views_alias_witness :
    (Web.writeView (Web.SealedData.fromCombined (List.range 29) none)
        ((Web.SealedData.fromCombined (List.range 29) none).ivView) 0 99).buffer
      ≠ (Web.SealedData.fromCombined (List.range 29) none).buffer :=
  (Web.accessor_views_alias (Web.SealedData.fromCombined (List.range 29) none) 0 99
    (by decide) (by decide) (by decide)).1

namespace Ios

/-- iOS: the shape of a CryptoKit `AES.GCM.SealedBox` — nonce, ciphertext and
tag byte sequences.  Modelled from the spec and CryptoKit's documented
behavior (the platform primitive is not part of the repository): the
`combined` representation is populated exactly when the nonce is 12 bytes, a
fact the source itself records in comments
("SealedBox(combined:) works only if IV length is 12"). -/
structure SealedBox where
  nonce : List Nat
  ciphertext : List Nat
  tag : List Nat
deriving DecidableEq

/-- iOS model of CryptoKit `SealedBox.combined`: `some (nonce ++ ct ++ tag)`
when the nonce is exactly 12 bytes, `nil` otherwise. -/
def SealedBox.combinedOpt (b : SealedBox) : Option (List Nat) :=
  if b.nonce.length = 12 then some (b.nonce ++ b.ciphertext ++ b.tag) else none

/-- iOS: `SealedData` wraps a sealed box. -/
structure SealedData where
  inner : SealedBox
deriving DecidableEq

/-- iOS: `var combined: Data { inner.combined! }` — the force-unwrap of the
optional; `none` models the trap on `nil`. -/
def SealedData.combined (s : SealedData) : Option (List Nat) := s.inner.combinedOpt

end Ios

/-- Claim C9: on the iOS backend, the `combined` accessor force-unwraps the
sealed box's optional combined representation, which is populated exactly when
the nonce is 12 bytes: under the precondition `nonce.length = 12` the nil
branch is unreachable and `combined` returns `nonce ++ ciphertext ++ tag`,
while for a sealed box whose nonce has any other length the accessor traps
(modelled as `none`) instead of returning the concatenation. -/
theorem Ios.combined_force_unwrap (b : Ios.SealedBox) :
    (b.nonce.length = 12 →
        Ios.SealedData.combined ⟨b⟩ = some (b.nonce ++ b.ciphertext ++ b.tag))
    ∧ (b.nonce.length ≠ 12 → Ios.SealedData.combined ⟨b⟩ = none) := by
  constructor
  · intro h
    show Ios.SealedBox.combinedOpt b = some (b.nonce ++ b.ciphertext ++ b.tag)
    unfold Ios.SealedBox.combinedOpt
    rw [if_pos h]
  · intro h
    show Ios.SealedBox.combinedOpt b = none
    unfold Ios.SealedBox.combinedOpt
    rw [if_neg h]

/-- Witness for C9 at concrete inputs: a 12-byte nonce yields the
concatenation, a 1-byte nonce traps. -/
theorem Ios.combined_force_unwrap_witness :
    Ios.SealedData.combined ⟨⟨List.replicate 12 0, [1, 2], List.replicate 16 3⟩⟩
        = some (List.replicate 12 0 ++ [1, 2] ++ List.replicate 16 3)
    ∧ Ios.SealedData.combined ⟨⟨[7], [1, 2], List.replicate 16 3⟩⟩ = none :=
  ⟨(Ios.combined_force_unwrap ⟨List.replicate 12 0, [1, 2], List.replicate 16 3⟩).1
      (by decide),
   (Ios.combined_force_unwrap ⟨[7], [1, 2], List.replicate 16 3⟩).2 (by decide)⟩

/-- The platform AEAD primitive (WebCrypto `crypto.subtle.encrypt/decrypt` in
GCM mode), which is not part of the repository: `sealOp key iv aad tagLen pt`
yields the ciphertext and authentication tag, `openBox key iv aad tagLen c`
verifies and decrypts a ciphertext-with-appended-tag buffer, returning `none`
when the tag does not verify. -/
structure Aead where
  sealOp : List Nat → List Nat → Option (List Nat) → Nat → List Nat → List Nat × List Nat
  openBox : List Nat → List Nat → Option (List Nat) → Nat → List Nat → Option (List Nat)

/-- Functional correctness of an AEAD primitive: opening a sealed
ciphertext-with-tag with the same key, nonce, AAD and tag length recovers the
plaintext. -/
def Aead.Correct (A : Aead) : Prop :=
  ∀ key iv aad tl pt,
    A.openBox key iv aad tl
      ((A.sealOp key iv aad tl pt).1 ++ (A.sealOp key iv aad tl pt).2) = some pt

/-- One mixing step of the toy MAC used by the executable AEAD instance. -/
def mixStep (a b : Nat) : Nat := (a * 31 + b + 1) % 1000003

/-- Folding the toy MAC over a byte list. -/
def mixFold (l : List Nat) (acc : Nat) : Nat := l.foldl mixStep acc

/-- Toy authentication tag of length `tl` over key, nonce, AAD and ciphertext
(the marker 257 separates an absent AAD from any byte value). -/
def tagOf (key iv : List Nat) (aad : Option (List Nat)) (ct : List Nat) (tl : Nat) :
    List Nat :=
  (List.range tl).map (fun i => mixFold (key ++ iv ++ aad.getD [257] ++ ct) (i + 7) % 256)

/-- Length of the toy tag. -/
theorem tagOf_length (key iv : List Nat) (aad : Option (List Nat)) (ct : List Nat)
    (tl : Nat) : (tagOf key iv aad ct tl).length = tl := by
  unfold tagOf
  simp

/-- A concrete executable AEAD instance: the cipher is the identity on bytes
and the tag is `tagOf`; opening re-derives the tag and compares. -/
def idealAead : Aead where
  sealOp := fun key iv aad tl pt => (pt, tagOf key iv aad pt tl)
  openBox := fun key iv aad tl c =>
    if c.drop (c.length - tl) = tagOf key iv aad (c.take (c.length - tl)) tl
        ∧ tl ≤ c.length
    then some (c.take (c.length - tl)) else none

/-- The concrete instance satisfies the AEAD correctness contract. -/
theorem idealAead_correct : Aead.Correct idealAead := by
  intro key iv aad tl pt
  have htl : (tagOf key iv aad pt tl).length = tl := tagOf_length key iv aad pt tl
  show idealAead.openBox key iv aad tl (pt ++ tagOf key iv aad pt tl) = some pt
  have hlen : (pt ++ tagOf key iv aad pt tl).length - tl = pt.length := by
    rw [List.length_append, htl]
    omega
  show (if (pt ++ tagOf key iv aad pt tl).drop ((pt ++ tagOf key iv aad pt tl).length - tl)
          = tagOf key iv aad
              ((pt ++ tagOf key iv aad pt tl).take
                ((pt ++ tagOf key iv aad pt tl).length - tl)) tl
        ∧ tl ≤ (pt ++ tagOf key iv aad pt tl).length
      then some ((pt ++ tagOf key iv aad pt tl).take
            ((pt ++ tagOf key iv aad pt tl).length - tl))
      else none) = some pt
  rw [hlen, List.take_left, List.drop_left]
  rw [if_pos ⟨rfl, by rw [List.length_append, htl]; omega⟩]

namespace Web

/-- Web: `const iv = typeof nonce === "number" ?
crypto.getRandomValues(new Uint8Array(nonce)) : nonce` — a numeric nonce spec
draws that many bytes from the entropy source `rand`, a byte nonce is used as
given. -/
def resolveNonce (rand : Nat → List Nat) : Sum Nat (List Nat) → List Nat
  | .inl n => rand n
  | .inr b => b

/-- Helper: a caller-supplied byte nonce resolves to itself. -/
theorem resolveNonce_inr (rand : Nat → List Nat) (b : List Nat) :
    resolveNonce rand (Sum.inr b) = b := rfl

/-- Helper: a numeric nonce spec resolves to generated bytes. -/
theorem resolveNonce_inl (rand : Nat → List Nat) (n : Nat) :
    resolveNonce rand (Sum.inl n) = rand n := rfl

/-- Web: `AesCryptoModule.encryptAsync(plaintext, key, options)` — resolves
the nonce (default: generate 12 bytes), seals with the primitive at the
requested tag length (default 16) and optional AAD, and assembles the result
via `SealedData.fromNonceAndCiphertext(iv, ciphertextWithTag, tagLength)`. -/
def encryptAsync (A : Aead) (rand : Nat → List Nat) (plaintext key : List Nat)
    (nonce : Sum Nat (List Nat)) (tagLength : Nat) (aad : Option (List Nat)) :
    SealedData :=
  let iv := resolveNonce rand nonce
  SealedData.fromNonceAndCiphertext iv
    ((A.sealOp key iv aad tagLength plaintext).1 ++ (A.sealOp key iv aad tagLength plaintext).2)
    (TagArg.num tagLength)

/-- Web: `AesCryptoModule.decryptAsync(sealedData, key, options)` — extracts
the nonce and the ciphertext-with-tag through the container accessors and
invokes the primitive's authenticated open at the container's tag size. -/
def decryptAsync (A : Aead) (s : SealedData) (key : List Nat)
    (aad : Option (List Nat)) : Option (List Nat) :=
  A.openBox key s.iv aad s.tagSize (s.ciphertext true)

/-- Helper: the numeric-tag form of `fromNonceAndCiphertext` with a nonzero
tag length stores `iv ++ ciphertext` with config `(iv.length, t)`. -/
theorem fromNonce_num_fields (iv ct : List Nat) (t : Nat) (ht : 0 < t) :
    SealedData.fromNonceAndCiphertext iv ct (TagArg.num t)
      = ⟨iv ++ ct, ⟨iv.length, t⟩⟩ := by
  obtain ⟨m, rfl⟩ : ∃ m, t = m + 1 := ⟨t - 1, by omega⟩
  rfl

/-- Helper: accessor values of a container whose buffer is `ivb ++ ct` with
config `(ivb.length, t)`. -/
theorem mkContainer_accessors (ivb ct : List Nat) (t : Nat) :
    SealedData.iv ⟨ivb ++ ct, ⟨ivb.length, t⟩⟩ = ivb
    ∧ SealedData.ciphertext ⟨ivb ++ ct, ⟨ivb.length, t⟩⟩ true = ct
    ∧ SealedData.tagSize ⟨ivb ++ ct, ⟨ivb.length, t⟩⟩ = t
    ∧ SealedData.ivSize ⟨ivb ++ ct, ⟨ivb.length, t⟩⟩ = ivb.length := by
  refine ⟨?_, ?_, rfl, rfl⟩
  · show jsSlice (ivb ++ ct) 0 ivb.length = ivb
    simp [jsSlice, List.take_left]
  · show jsSlice (ivb ++ ct) ivb.length ((ivb ++ ct).length - ivb.length) = ct
    have h : (ivb ++ ct).length - ivb.length = ct.length := by simp
    rw [h]
    simp [jsSlice, List.drop_left]

end Web

/-- Claim C1: for every key, every plaintext (including the empty one), every
AAD choice, every nonce specification (generated or caller-supplied) and every
nonzero tag length, decrypting the `SealedData` produced by `encryptAsync`
with the same key and AAD returns exactly the plaintext, for any AEAD
primitive satisfying the functional-correctness contract. -/
theorem Web.decrypt_encrypt_roundTrip (A : Aead) (hA : A.Correct)
    (rand : Nat → List Nat) (p key : List Nat) (aad : Option (List Nat))
    (nonce : Sum Nat (List Nat)) (tl : Nat) (htl : 0 < tl) :
    Web.decryptAsync A (Web.encryptAsync A rand p key nonce tl aad) key aad = some p := by
  unfold Web.encryptAsync Web.decryptAsync
  rw [Web.fromNonce_num_fields _ _ tl htl]
  rw [(Web.mkContainer_accessors (Web.resolveNonce rand nonce) _ tl).1,
      (Web.mkContainer_accessors (Web.resolveNonce rand nonce) _ tl).2.1,
      (Web.mkContainer_accessors (Web.resolveNonce rand nonce) _ tl).2.2.1]
  exact hA key (Web.resolveNonce rand nonce) aad tl p

/-- Witness for C1 at a concrete input: the empty plaintext round-trips under
the concrete AEAD instance with the default 12-byte generated nonce, 16-byte
tag, and an AAD. -/
theorem Web.decrypt_encrypt_roundTrip_witness :
    Web.decryptAsync idealAead
        (Web.encryptAsync idealAead (fun n => List.replicate n 7) [] (List.replicate 32 0)
          (Sum.inl 12) 16 (some [3]))
        (List.replicate 32 0) (some [3]) = some [] :=
  Web.decrypt_encrypt_roundTrip idealAead idealAead_correct (fun n => List.replicate n 7)
    [] (List.replicate 32 0) (some [3]) (Sum.inl 12) 16 (by decide)

/-- Claim C4: web `decryptAsync` returns exactly the primitive's authenticated
open verdict applied to the container's nonce, tag size and
ciphertext-with-tag — there is a single generic failure (`none`) carrying no
plaintext and not distinguishing wrong key, wrong AAD or corruption; in
particular, decrypting an encryption made with one AAD under a different AAD
fails exactly when the primitive's tag verification fails, and nothing is
returned then. -/
theorem Web.decrypt_surfaces_auth_verdict (A : Aead) (rand : Nat → List Nat)
    (p key ivBytes : List Nat) (tl : Nat) (htl : 0 < tl)
    (aad1 aad2 : Option (List Nat)) :
    (∀ s : Web.SealedData, Web.decryptAsync A s key aad2
        = A.openBox key s.iv aad2 s.tagSize (s.ciphertext true))
    ∧ Web.decryptAsync A (Web.encryptAsync A rand p key (Sum.inr ivBytes) tl aad1) key aad2
        = A.openBox key ivBytes aad2 tl
            ((A.sealOp key ivBytes aad1 tl p).1 ++ (A.sealOp key ivBytes aad1 tl p).2)
    ∧ (A.openBox key ivBytes aad2 tl
          ((A.sealOp key ivBytes aad1 tl p).1 ++ (A.sealOp key ivBytes aad1 tl p).2) = none →
        Web.decryptAsync A (Web.encryptAsync A rand p key (Sum.inr ivBytes) tl aad1)
          key aad2 = none) := by
  have hmain : Web.decryptAsync A
      (Web.encryptAsync A rand p key (Sum.inr ivBytes) tl aad1) key aad2
      = A.openBox key ivBytes aad2 tl
          ((A.sealOp key ivBytes aad1 tl p).1 ++ (A.sealOp key ivBytes aad1 tl p).2) := by
    unfold Web.encryptAsync Web.decryptAsync
    rw [Web.resolveNonce_inr rand ivBytes]
    rw [Web.fromNonce_num_fields _ _ tl htl]
    rw [(Web.mkContainer_accessors ivBytes _ tl).1,
        (Web.mkContainer_accessors ivBytes _ tl).2.1,
        (Web.mkContainer_accessors ivBytes _ tl).2.2.1]
  exact ⟨fun s => rfl, hmain, fun hfail => hmain.trans hfail⟩

/-- Witness for C4 at a concrete input: under the concrete AEAD instance,
decrypting with AAD `[2]` a container encrypted with AAD `[1]` fails (the
primitive verdict is `none`, computed by evaluation), and the module surfaces
exactly that failure. -/
theorem Web.decrypt_surfaces_auth_verdict_witness :
    Web.decryptAsync idealAead
        (Web.encryptAsync idealAead (fun n => List.replicate n 7) [5] [1] (Sum.inr [2]) 2
          (some [1]))
        [1] (some [2]) = none :=
  (Web.decrypt_surfaces_auth_verdict idealAead (fun n => List.replicate n 7) [5] [1] [2] 2
    (by decide) (some [1]) (some [2])).2.2 (by decide)

/-- Claim C6: encrypting with caller-supplied nonce bytes yields a container
whose `iv()` is exactly those bytes and whose `ivSize` is their length, with a
nonzero requested tag length honoured as `tagSize`; encrypting with the
defaults (generate 12 nonce bytes, tag length 16) yields `ivSize = 12` and
`tagSize = 16`, provided the entropy source returns as many bytes as asked. -/
theorem Web.encrypt_nonce_and_tag (A : Aead) (rand : Nat → List Nat)
    (hrand : (rand 12).length = 12) (p key : List Nat) (aad : Option (List Nat))
    (ivBytes : List Nat) (tl : Nat) (htl : 0 < tl) :
    (Web.encryptAsync A rand p key (Sum.inr ivBytes) tl aad).iv = ivBytes
    ∧ (Web.encryptAsync A rand p key (Sum.inr ivBytes) tl aad).ivSize = ivBytes.length
    ∧ (Web.encryptAsync A rand p key (Sum.inr ivBytes) tl aad).tagSize = tl
    ∧ (Web.encryptAsync A rand p key (Sum.inl 12) 16 aad).ivSize = 12
    ∧ (Web.encryptAsync A rand p key (Sum.inl 12) 16 aad).tagSize = 16 := by
  unfold Web.encryptAsync
  rw [Web.resolveNonce_inr rand ivBytes]
  rw [Web.fromNonce_num_fields _ _ tl htl,
      Web.fromNonce_num_fields _ _ 16 (by omega)]
  refine ⟨(Web.mkContainer_accessors ivBytes _ tl).1,
    (Web.mkContainer_accessors ivBytes _ tl).2.2.2,
    (Web.mkContainer_accessors ivBytes _ tl).2.2.1, ?_, ?_⟩
  · show (Web.resolveNonce rand (Sum.inl 12)).length = 12
    exact hrand
  · rfl

/-- Witness for C6 at concrete inputs: a caller-supplied 3-byte nonce and tag
length 4 are kept verbatim, and the default call yields a 12-byte nonce with a
16-byte tag. -/
theorem Web.encrypt_nonce_and_tag_witness :
    (Web.encryptAsync idealAead (fun n => List.replicate n 0) [1] [2] (Sum.inr [9, 9, 9]) 4
        none).iv = [9, 9, 9]
    ∧ (Web.encryptAsync idealAead (fun n => List.replicate n 0) [1] [2] (Sum.inl 12) 16
        none).ivSize = 12 :=
  ⟨(Web.encrypt_nonce_and_tag idealAead (fun n => List.replicate n 0) (by decide) [1] [2]
      none [9, 9, 9] 4 (by decide)).1,
   (Web.encrypt_nonce_and_tag idealAead (fun n => List.replicate n 0) (by decide) [1] [2]
      none [9, 9, 9] 4 (by decide)).2.2.2.1⟩
